import Mathlib

/-!
Verification of the stock-chart-compare repository.

This file gives a shallow embedding of the algorithmic core of the
repository (the comparator page in src/app/comparator/page.tsx and the
stock route handler) and proves properties of it.

Calendar dates are modelled at day granularity as civil (year, month, day)
triples; JavaScript Date arithmetic (setFullYear, setDate, getTime,
Date.UTC) is modelled through the standard civil-from-days /
days-from-civil conversions, which agree with ECMAScript MakeDay /
DateFromTime semantics: day-of-month overflow and underflow flow into the
adjacent months exactly as in ECMAScript, because the day-count formula is
linear in the day argument. Prices and performance values are modelled as
rationals, the exact counterpart of the arithmetic the code performs.
-/

namespace StockCompare

/-- A civil calendar date at day granularity, as produced by parsing a
YYYY-MM-DD string. -/
structure Date where
  year : Int
  month : Int
  day : Int
deriving DecidableEq, Repr

/-- Number of days since 1970-01-01 of the civil date (y, m, d): Howard
Hinnant's days-from-civil computation, the arithmetic ECMAScript MakeDay
performs. The formula is linear in d, so an out-of-range day-of-month
flows into the adjacent months, exactly as in ECMAScript. -/
def daysFromCivil (y m d : Int) : Int :=
  let yy := if m ≤ 2 then y - 1 else y
  let era := Int.ediv yy 400
  let yoe := yy - era * 400
  let mp := Int.emod (m + 9) 12
  let doy := Int.ediv (153 * mp + 2) 5 + d - 1
  let doe := yoe * 365 + Int.ediv yoe 4 - Int.ediv yoe 100 + doy
  era * 146097 + doe - 719468

/-- Civil date from a count of days since 1970-01-01: Howard Hinnant's
civil-from-days computation, the arithmetic of ECMAScript YearFromTime,
MonthFromTime and DateFromTime. -/
def civilFromDays (z : Int) : Date :=
  let z2 := z + 719468
  let era := Int.ediv z2 146097
  let doe := z2 - era * 146097
  let yoe := Int.ediv (doe - Int.ediv doe 1460 + Int.ediv doe 36524 - Int.ediv doe 146096) 365
  let y := yoe + era * 400
  let doy := doe - (365 * yoe + Int.ediv yoe 4 - Int.ediv yoe 100)
  let mp := Int.ediv (5 * doy + 2) 153
  let d := doy - Int.ediv (153 * mp + 2) 5 + 1
  let m := if mp < 10 then mp + 3 else mp - 9
  ⟨if m ≤ 2 then y + 1 else y, m, d⟩

/-- Days since the Unix epoch of a date. -/
def Date.epochDays (e : Date) : Int :=
  daysFromCivil e.year e.month e.day

/-- Milliseconds since the Unix epoch of UTC midnight of a date: the value
of getTime() on a Date parsed from the YYYY-MM-DD string. -/
def getTime (e : Date) : Int :=
  86400000 * e.epochDays

/-- The source's dateToUTCTimestamp (comparator page, lines 46-49):
Date.UTC(year, month - 1, day) / 1000, seconds since the Unix epoch of UTC
midnight of the date. -/
def dateToUTCTimestamp (e : Date) : Int :=
  86400 * e.epochDays

/-- ECMAScript setFullYear(y) at day granularity: keep month and
day-of-month, replace the year, normalising overflow (Feb 29 of a non-leap
year becomes Mar 1). -/
def setFullYear (e : Date) (y : Int) : Date :=
  civilFromDays (daysFromCivil y e.month e.day)

/-- ECMAScript setDate(n) at day granularity: keep year and month, set the
day-of-month to n, normalising underflow and overflow into the adjacent
months (setDate(0) is the last day of the previous month). -/
def setDate (e : Date) (n : Int) : Date :=
  civilFromDays (daysFromCivil e.year e.month n)

/-- The source's getTimeframeStartDate (comparator page, lines 74-96):
subtract 1, 3 or 5 calendar years according to the token, any unrecognized
token behaving like "1y", then go back one more day; for "all" return
new Date(0), the Unix epoch, with no further adjustment. -/
def getTimeframeStartDate (endDate : Date) (option : String) : Date :=
  if option = "all" then
    ⟨1970, 1, 1⟩
  else
    let years : Int := if option = "3y" then 3 else if option = "5y" then 5 else 1
    let result := setFullYear endDate (endDate.year - years)
    setDate result (result.day - 1)

/-- A price record as consumed by the comparator page: the trading date and
the adjusted close. -/
structure StockPriceData where
  date : Date
  price : ℚ
deriving DecidableEq, Repr

/-- The payload of one stock fetch: symbol, price series, optional name. -/
structure StockData where
  symbol : String
  prices : List StockPriceData
  name : Option String := none
deriving DecidableEq, Repr

/-- A point of the rebased performance series: timestamp in seconds and the
value of the 100-dollar investment. -/
structure PerformancePoint where
  time : Int
  value : ℚ
deriving DecidableEq, Repr

/-- The record returned by processData: the performance series and the
final value. -/
structure ProcessResult where
  series : List PerformancePoint
  finalValue : ℚ
deriving DecidableEq, Repr

/-- Comparator ordering used by the source's sort of the price series:
ascending by the timestamp of the date. -/
def priceLE (a b : StockPriceData) : Prop :=
  getTime a.date ≤ getTime b.date

instance : DecidableRel priceLE :=
  fun a b => Int.decLe (getTime a.date) (getTime b.date)

instance : IsTotal StockPriceData priceLE :=
  ⟨fun a b => Int.le_total (getTime a.date) (getTime b.date)⟩

instance : IsTrans StockPriceData priceLE :=
  ⟨fun _ _ _ hab hbc => Int.le_trans hab hbc⟩

/-- The source's defensive sort of the price series (line 104): a stable
ascending sort by date timestamp. -/
def sortPrices (l : List StockPriceData) : List StockPriceData :=
  List.insertionSort priceLE l

/-- The predicate of the source's findIndex (line 107): the point's date is
on or after the start date, compared as timestamps. -/
def afterStart (startDate : Date) (p : StockPriceData) : Bool :=
  decide (getTime startDate ≤ getTime p.date)

/-- Placeholder record for out-of-range indexing; processData only indexes
at the position returned by findIdx?, which is always in range. -/
def defaultPricePoint : StockPriceData :=
  ⟨⟨1970, 1, 1⟩, 0⟩

/-- The source's processData (comparator page, lines 99-131): sort the
first stock's prices by date, locate the first point on or after the start
date, guard a non-positive base price, then rebase every point from that
index on to 100 * price / basePrice with the date's timestamp. -/
def processData (stockData : List StockData) (startDate : Date) : Option ProcessResult :=
  match stockData with
  | [] => none
  | sd :: _ =>
    if sd.prices.length = 0 then none
    else
      let prices := sortPrices sd.prices
      match prices.findIdx? (afterStart startDate) with
      | none => none
      | some startIndex =>
        let startPrice := (prices.getD startIndex defaultPricePoint).price
        if startPrice ≤ 0 then none
        else
          let relevantPrices := prices.drop startIndex
          let performanceSeries := relevantPrices.map fun point =>
            ({ time := dateToUTCTimestamp point.date
               value := 100 * (point.price / startPrice) } : PerformancePoint)
          let finalValue :=
            match performanceSeries.getLast? with
            | some pt => pt.value
            | none => 100
          some { series := performanceSeries, finalValue := finalValue }

/-- Uppercasing of a ticker or symbol, the model of toUpperCase():
character-wise uppercasing of the underlying characters. -/
def toUpperStr (s : String) : String :=
  ⟨s.data.map Char.toUpper⟩

/-- A settled fetch of one ticker: the HTTP-success flag and the parsed
body. -/
structure FetchResponse where
  ok : Bool
  data : StockData
deriving DecidableEq, Repr

/-- The source's ComparisonResult record. -/
structure ComparisonResult where
  ticker1 : String
  ticker2 : String
  series1 : List PerformancePoint
  series2 : List PerformancePoint
  finalValue1 : ℚ
  finalValue2 : ℚ
deriving DecidableEq, Repr

/-- The source's fetchComparisonData (comparator page, lines 134-191),
modelled as a pure function of the two settled fetch responses; the result
is the pair of states the call leaves behind: the comparison data and the
error message (empty string for no error). Early return with cleared state
when either ticker is empty; a failed fetch or a failed normalization
throws, which the catch turns into the composed error message and a
cleared comparison result. -/
def fetchComparisonData (ticker1 ticker2 : String) (timeframe : String) (endDate : Date)
    (r1 r2 : FetchResponse) : Option ComparisonResult × String :=
  if ticker1 = "" ∨ ticker2 = "" then (none, "")
  else
    let startDate := getTimeframeStartDate endDate timeframe
    if r1.ok = false ∨ r2.ok = false then
      let errorMsg := "Failed to fetch stock data."
      let errorMsg := if r1.ok = false then errorMsg ++ " Check ticker " ++ ticker1 ++ "." else errorMsg
      let errorMsg := if r2.ok = false then errorMsg ++ " Check ticker " ++ ticker2 ++ "." else errorMsg
      (none, errorMsg)
    else
      let processed1 := processData [r1.data] startDate
      let processed2 := processData [r2.data] startDate
      match processed1, processed2 with
      | some p1, some p2 =>
        (some { ticker1 := toUpperStr ticker1
                ticker2 := toUpperStr ticker2
                series1 := p1.series
                series2 := p2.series
                finalValue1 := p1.finalValue
                finalValue2 := p2.finalValue }, "")
      | o1, o2 =>
        let errorMsg := "Could not process data for comparison."
        let errorMsg := if o1.isNone then errorMsg ++ " Check data availability for " ++ ticker1 ++ "." else errorMsg
        let errorMsg := if o2.isNone then errorMsg ++ " Check data availability for " ++ ticker2 ++ "." else errorMsg
        (none, errorMsg)

/-- The proposition that a ticker name occurs inside an error message. -/
def mentions (msg t : String) : Prop :=
  ∃ a b, msg = a ++ t ++ b

/-- One raw bar from the provider's chart call: the trading date and the
optional OHLC and adjusted-close fields, any of which may be missing. -/
structure ChartQuote where
  date : Date
  adjclose : Option ℚ
  close : Option ℚ
  open_ : Option ℚ
  high : Option ℚ
  low : Option ℚ
deriving DecidableEq, Repr

/-- The provider's quote lookup payload used for the company name. -/
structure QuoteInfo where
  longName : Option String
  shortName : Option String
deriving DecidableEq, Repr

/-- An error thrown by the provider: its message and optional code. -/
structure ProviderError where
  message : String
  code : Option String
deriving DecidableEq, Repr

/-- One formatted price row of the route's response body. -/
structure ApiPrice where
  date : Date
  price : ℚ
  open_ : ℚ
  high : ℚ
  low : ℚ
  close : ℚ
deriving DecidableEq, Repr

/-- The JSON body of a route response: either the stock payload or an
error object. -/
inductive ApiBody where
  | stock (symbol : String) (name : String) (prices : List ApiPrice)
  | error (msg : String)
deriving DecidableEq, Repr

/-- A route response: HTTP status and JSON body. -/
structure ApiResponse where
  status : Nat
  body : ApiBody
deriving DecidableEq, Repr

/-- Rounding of Number.parseFloat(x.toFixed(2)): the multiple of 1/100
closest to x, ties toward the larger value, modelled exactly on the
rationals. -/
def toFixed2 (q : ℚ) : ℚ :=
  (⌊q * 100 + 1 / 2⌋ : ℚ) / 100

/-- The route's per-bar mapping (route handler, lines 63-93): adjusted
close falling back to close for the price, every needed field required to
be present, all values rounded to two decimals; bars with a missing field
are dropped. -/
def toApiPrice (data : ChartQuote) : Option ApiPrice :=
  let priceValue :=
    match data.adjclose with
    | some v => some v
    | none => data.close
  match priceValue, data.open_, data.high, data.low, data.close with
  | some pv, some o, some hi, some lo, some c =>
    some { date := data.date
           price := toFixed2 pv
           open_ := toFixed2 o
           high := toFixed2 hi
           low := toFixed2 lo
           close := toFixed2 c }
  | _, _, _, _, _ => none

/-- JavaScript truthiness of the name fallback chain: an absent or empty
string falls through to the alternative. -/
def orFalsy (a : Option String) (b : String) : String :=
  match a with
  | some s => if s = "" then b else s
  | none => b

/-- Character-by-character test that the first list starts the second. -/
def startsWith : List Char → List Char → Bool
  | [], _ => true
  | _ :: _, [] => false
  | a :: as, b :: bs => a == b && startsWith as bs

/-- Test that the first list occurs contiguously inside the second: the
model of String.prototype.includes. -/
def containsSub (sub : List Char) : List Char → Bool
  | [] => startsWith sub []
  | b :: bs => startsWith sub (b :: bs) || containsSub sub bs

/-- The route's classification of a thrown provider error (route handler,
line 115): the message contains "No data found" or the code is
'Not Found'. -/
def isNotFoundError (e : ProviderError) : Bool :=
  containsSub "No data found".toList e.message.toList || e.code == some "Not Found"

/-- The route's catch branch (route handler, lines 110-120): a not-found
style provider error becomes a 404 naming the symbol, anything else a
generic 500. -/
def errorResponse (symbol : String) (e : ProviderError) : ApiResponse :=
  if isNotFoundError e then
    { status := 404, body := ApiBody.error ("Stock symbol " ++ symbol ++ " not found or no data available") }
  else
    { status := 500, body := ApiBody.error "Failed to fetch stock data" }

/-- The route handler GET (src/unnamed/part_000), modelled as a pure
function of the query's symbol and the settled provider outcomes of the
chart and quote calls. A missing or empty symbol is a 400; a provider
error is classified by errorResponse; otherwise the response is the 200
stock payload, even when no usable price rows remain. The timeframe
parameter only shapes the upstream query and does not affect the response
shape, so it is not modelled here. -/
def GET (symbol : Option String) (chartRes : Except ProviderError (List ChartQuote))
    (quoteRes : Except ProviderError QuoteInfo) : ApiResponse :=
  match (symbol.map toUpperStr) with
  | none => { status := 400, body := ApiBody.error "Stock symbol is required" }
  | some sym =>
    if sym = "" then { status := 400, body := ApiBody.error "Stock symbol is required" }
    else
      match chartRes with
      | Except.error e => errorResponse sym e
      | Except.ok quotes =>
        match quoteRes with
        | Except.error e => errorResponse sym e
        | Except.ok q =>
          let name := orFalsy q.longName (orFalsy q.shortName (sym ++ " Inc."))
          let prices := quotes.filterMap toApiPrice
          { status := 200, body := ApiBody.stock sym name prices }

/-- The inputs captured by one render of the comparator page. -/
structure DebounceInput where
  ticker1 : String
  ticker2 : String
  timeframe : String
deriving DecidableEq, Repr

/-- One run of the comparator's debounce effect (comparator page, lines
194-220): the pending timer passed in is cleared unconditionally
(clearTimeout); when both tickers are non-empty a fresh 500 ms timer is
started capturing the current inputs, otherwise no timer remains. -/
def debounceEffect (now : Nat) (inp : DebounceInput) (_timer : Option (Nat × DebounceInput)) :
    Option (Nat × DebounceInput) :=
  if inp.ticker1 ≠ "" ∧ inp.ticker2 ≠ "" then some (now + 500, inp) else none

/-- Event-loop semantics of the debounced trigger: process a time-ordered
trace of input-change events; a pending timer whose deadline is reached
before the next change fires first, invoking the fetch with its captured
inputs; otherwise the change clears it and the effect runs. After the last
change, the pending timer, if any, eventually fires. The result is the
list of fetch invocations in order, each with its captured inputs. -/
def debounceRun (timer : Option (Nat × DebounceInput)) :
    List (Nat × DebounceInput) → List DebounceInput
  | [] =>
    match timer with
    | some (_, v) => [v]
    | none => []
  | (t, inp) :: rest =>
    match timer with
    | some (d, v) =>
      if d ≤ t then v :: debounceRun (debounceEffect t inp none) rest
      else debounceRun (debounceEffect t inp none) rest
    | none => debounceRun (debounceEffect t inp none) rest

/-- Sample start date used by concrete witnesses. -/
def sampleStart : Date := ⟨2024, 1, 1⟩

/-- Sample one-point stock used by concrete witnesses. -/
def sampleStock : StockData := ⟨"A", [⟨⟨2024, 1, 2⟩, 5⟩], none⟩

/-- The normalizer's output on the sample stock, with the rebased value
kept in unevaluated form. -/
def sampleResult : ProcessResult :=
  { series := [⟨dateToUTCTimestamp ⟨2024, 1, 2⟩, 100 * ((5 : ℚ) / 5)⟩]
    finalValue := 100 * ((5 : ℚ) / 5) }

/-- Sample two-point stock used by concrete witnesses. -/
def sampleStock2 : StockData := ⟨"B", [⟨⟨2024, 1, 2⟩, 5⟩, ⟨⟨2024, 1, 3⟩, 10⟩], none⟩

/-- The normalizer's output on the two-point sample stock. -/
def sampleResult2 : ProcessResult :=
  { series := [⟨dateToUTCTimestamp ⟨2024, 1, 2⟩, 100 * ((5 : ℚ) / 5)⟩,
               ⟨dateToUTCTimestamp ⟨2024, 1, 3⟩, 100 * ((10 : ℚ) / 5)⟩]
    finalValue := 100 * ((10 : ℚ) / 5) }

/-- Sample single zero-priced stock used by concrete witnesses. -/
def zeroStock : StockData := ⟨"Z", [⟨⟨2024, 1, 2⟩, 0⟩], none⟩

/-! ## Facts about the calendar model -/

theorem ediv_facts (a b : Int) (hb : 0 < b) :
    b * Int.ediv a b ≤ a ∧ a < b * Int.ediv a b + b := by
  have h1 := Int.ediv_add_emod a b
  have h2 := Int.emod_nonneg a (by omega : b ≠ 0)
  have h3 := Int.emod_lt_of_pos a hb
  have he : Int.ediv a b = a / b := rfl
  rw [he]
  constructor
  · linarith
  · linarith

theorem emod_facts (a b : Int) (hb : 0 < b) :
    0 ≤ Int.emod a b ∧ Int.emod a b < b ∧ b * Int.ediv a b + Int.emod a b = a := by
  have he : Int.ediv a b = a / b := rfl
  have hm : Int.emod a b = a % b := rfl
  rw [he, hm]
  exact ⟨Int.emod_nonneg a (by omega), Int.emod_lt_of_pos a hb, Int.ediv_add_emod a b⟩

theorem ifCollapse (p : Prop) [Decidable p] (a : Int) :
    (if p then (if p then a + 1 else a) - 1 else (if p then a + 1 else a)) = a := by
  split <;> omega

/-- Linearity of the day-count formula in its day argument: this is why
setDate and setFullYear handle day overflow like ECMAScript. -/
theorem daysFromCivil_linear (y m d k : Int) :
    daysFromCivil y m (d + k) = daysFromCivil y m d + k := by
  simp only [daysFromCivil]
  split <;> omega

set_option maxHeartbeats 8000000 in
theorem doy_bound (doe q1 q2 q3 yoe p4 p100 : Int)
    (h0 : 0 ≤ doe) (h0b : doe ≤ 146096)
    (h1 : 1460 * q1 ≤ doe) (h1b : doe < 1460 * q1 + 1460)
    (h2 : 36524 * q2 ≤ doe) (h2b : doe < 36524 * q2 + 36524)
    (h3 : 146096 * q3 ≤ doe) (h3b : doe < 146096 * q3 + 146096)
    (h4 : 365 * yoe ≤ doe - q1 + q2 - q3) (h4b : doe - q1 + q2 - q3 < 365 * yoe + 365)
    (h5 : 4 * p4 ≤ yoe) (h5b : yoe < 4 * p4 + 4)
    (h6 : 100 * p100 ≤ yoe) (h6b : yoe < 100 * p100 + 100) :
    (0 ≤ doe - (365 * yoe + p4 - p100) ∧ doe - (365 * yoe + p4 - p100) ≤ 365) ∧
      (0 ≤ yoe ∧ yoe ≤ 399) := by
  have s1 : 1460 * p4 ≤ 365 * yoe := by linarith
  have s2 : 365 * yoe < 1460 * p4 + 1460 := by linarith
  have s3 : 36500 * p100 ≤ 365 * yoe := by linarith
  have s4 : 365 * yoe < 36500 * p100 + 36500 := by linarith
  have hq2 : 0 ≤ q2 ∧ q2 ≤ 4 := by omega
  have hq3 : 0 ≤ q3 ∧ q3 ≤ 1 := by omega
  have hp100 : 0 ≤ p100 ∧ p100 ≤ 4 := by omega
  obtain ⟨hq2a, hq2b⟩ := hq2
  obtain ⟨hq3a, hq3b⟩ := hq3
  obtain ⟨hp100a, hp100b⟩ := hp100
  interval_cases q2 <;> interval_cases q3 <;> interval_cases p100 <;> omega

set_option maxHeartbeats 8000000 in
/-- The day count is a left inverse of the civil decomposition: converting
a day number to a civil date and back is the identity. This validates the
calendar model and underpins the one-day-subtraction facts. -/
theorem epochDays_civilFromDays (z : Int) : (civilFromDays z).epochDays = z := by
  simp only [civilFromDays, Date.epochDays, daysFromCivil]
  generalize hg1 : Int.ediv (z + 719468) 146097 = era
  obtain ⟨hA1, hB1⟩ := ediv_facts (z + 719468) 146097 (by omega)
  rw [hg1] at hA1 hB1
  generalize hg2 : Int.ediv (z + 719468 - era * 146097) 1460 = q1
  obtain ⟨hA2, hB2⟩ := ediv_facts (z + 719468 - era * 146097) 1460 (by omega)
  rw [hg2] at hA2 hB2
  generalize hg3 : Int.ediv (z + 719468 - era * 146097) 36524 = q2
  obtain ⟨hA3, hB3⟩ := ediv_facts (z + 719468 - era * 146097) 36524 (by omega)
  rw [hg3] at hA3 hB3
  generalize hg4 : Int.ediv (z + 719468 - era * 146097) 146096 = q3
  obtain ⟨hA4, hB4⟩ := ediv_facts (z + 719468 - era * 146097) 146096 (by omega)
  rw [hg4] at hA4 hB4
  generalize hg5 : Int.ediv (z + 719468 - era * 146097 - q1 + q2 - q3) 365 = yoe
  obtain ⟨hA5, hB5⟩ := ediv_facts (z + 719468 - era * 146097 - q1 + q2 - q3) 365 (by omega)
  rw [hg5] at hA5 hB5
  generalize hg6 : Int.ediv yoe 4 = p4
  obtain ⟨hA6, hB6⟩ := ediv_facts yoe 4 (by omega)
  rw [hg6] at hA6 hB6
  generalize hg7 : Int.ediv yoe 100 = p100
  obtain ⟨hA7, hB7⟩ := ediv_facts yoe 100 (by omega)
  rw [hg7] at hA7 hB7
  obtain ⟨⟨hdy1, hdy2⟩, hyoe1, hyoe2⟩ :=
    doy_bound (z + 719468 - era * 146097) q1 q2 q3 yoe p4 p100 (by omega) (by omega) hA2 hB2
      hA3 hB3 hA4 hB4 hA5 hB5 hA6 hB6 hA7 hB7
  generalize hg8 : Int.ediv (5 * (z + 719468 - era * 146097 - (365 * yoe + p4 - p100)) + 2) 153 = mp
  obtain ⟨hA8, hB8⟩ :=
    ediv_facts (5 * (z + 719468 - era * 146097 - (365 * yoe + p4 - p100)) + 2) 153 (by omega)
  rw [hg8] at hA8 hB8
  generalize hg9 : Int.ediv (153 * mp + 2) 5 = q5
  obtain ⟨hA9, hB9⟩ := ediv_facts (153 * mp + 2) 5 (by omega)
  rw [hg9] at hA9 hB9
  generalize hg10 : (if mp < 10 then mp + 3 else mp - 9) = m
  simp only [ifCollapse]
  generalize hg11 : Int.ediv (yoe + era * 400) 400 = e2
  obtain ⟨hA10, hB10⟩ := ediv_facts (yoe + era * 400) 400 (by omega)
  rw [hg11] at hA10 hB10
  generalize hg12 : Int.ediv (yoe + era * 400 - e2 * 400) 4 = p4b
  obtain ⟨hA11, hB11⟩ := ediv_facts (yoe + era * 400 - e2 * 400) 4 (by omega)
  rw [hg12] at hA11 hB11
  generalize hg13 : Int.ediv (yoe + era * 400 - e2 * 400) 100 = p100b
  obtain ⟨hA12, hB12⟩ := ediv_facts (yoe + era * 400 - e2 * 400) 100 (by omega)
  rw [hg13] at hA12 hB12
  generalize hg14 : Int.emod (m + 9) 12 = mm
  obtain ⟨hN1, hN2, hN3⟩ := emod_facts (m + 9) 12 (by omega)
  rw [hg14] at hN1 hN2 hN3
  generalize hg16 : Int.ediv (153 * mm + 2) 5 = q5b
  obtain ⟨hA13, hB13⟩ := ediv_facts (153 * mm + 2) 5 (by omega)
  rw [hg16] at hA13 hB13
  generalize hg15 : Int.ediv (m + 9) 12 = qm at hN3
  have hmp0 : 0 ≤ mp ∧ mp ≤ 11 := by omega
  have he2 : e2 = era := by omega
  have hp4b : p4b = p4 := by omega
  have hp100b : p100b = p100 := by omega
  by_cases hmp : mp < 10
  · rw [if_pos hmp] at hg10
    have hqm1 : qm = 1 := by omega
    have hmm : mm = mp := by omega
    have hq5b : q5b = q5 := by omega
    omega
  · rw [if_neg hmp] at hg10
    have hqm1 : qm = 0 := by omega
    have hmm : mm = mp := by omega
    have hq5b : q5b = q5 := by omega
    omega

/-- Setting the day-of-month one lower moves the date exactly one day
back. -/
theorem epochDays_setDate_pred (e : Date) :
    (setDate e (e.day - 1)).epochDays = e.epochDays - 1 := by
  have h : e.day - 1 = e.day + (-1) := by ring
  rw [setDate, h, daysFromCivil_linear, epochDays_civilFromDays]
  rfl

theorem gtsd_1y (e : Date) :
    getTimeframeStartDate e "1y" =
      setDate (setFullYear e (e.year - 1)) ((setFullYear e (e.year - 1)).day - 1) := rfl

theorem gtsd_3y (e : Date) :
    getTimeframeStartDate e "3y" =
      setDate (setFullYear e (e.year - 3)) ((setFullYear e (e.year - 3)).day - 1) := rfl

theorem gtsd_5y (e : Date) :
    getTimeframeStartDate e "5y" =
      setDate (setFullYear e (e.year - 5)) ((setFullYear e (e.year - 5)).day - 1) := rfl

theorem gtsd_fallback (e : Date) (tok : String) (h3 : tok ≠ "3y") (h5 : tok ≠ "5y")
    (ha : tok ≠ "all") :
    getTimeframeStartDate e tok =
      setDate (setFullYear e (e.year - 1)) ((setFullYear e (e.year - 1)).day - 1) := by
  simp only [getTimeframeStartDate, if_neg ha, if_neg h3, if_neg h5]

/-- C3: for the tokens "1y", "3y" and "5y" the resolver subtracts the
corresponding number of calendar years from the end date (setFullYear
semantics: month and day preserved, with calendar overflow) and then
subtracts one additional day; any unrecognized token falls back to the
"1y" behavior; and resolveStart(2024-06-15, "1y") = 2023-06-14. -/
theorem getTimeframeStartDate_subtracts_years_then_one_day :
    (∀ e : Date,
      (getTimeframeStartDate e "1y").epochDays = (setFullYear e (e.year - 1)).epochDays - 1) ∧
    (∀ e : Date,
      (getTimeframeStartDate e "3y").epochDays = (setFullYear e (e.year - 3)).epochDays - 1) ∧
    (∀ e : Date,
      (getTimeframeStartDate e "5y").epochDays = (setFullYear e (e.year - 5)).epochDays - 1) ∧
    (∀ (e : Date) (tok : String), tok ≠ "3y" → tok ≠ "5y" → tok ≠ "all" →
      getTimeframeStartDate e tok = getTimeframeStartDate e "1y") ∧
    getTimeframeStartDate ⟨2024, 6, 15⟩ "1y" = ⟨2023, 6, 14⟩ := by
  refine ⟨?_, ?_, ?_, ?_, ?_⟩
  · intro e
    rw [gtsd_1y]
    exact epochDays_setDate_pred _
  · intro e
    rw [gtsd_3y]
    exact epochDays_setDate_pred _
  · intro e
    rw [gtsd_5y]
    exact epochDays_setDate_pred _
  · intro e tok h3 h5 ha
    rw [gtsd_fallback e tok h3 h5 ha, gtsd_1y]
  · decide

/-- Witness for C3: the unrecognized token "2y" resolves like "1y" at a
concrete end date. -/
theorem getTimeframeStartDate_subtracts_years_then_one_day_witness :
    getTimeframeStartDate ⟨2020, 1, 1⟩ "2y" = getTimeframeStartDate ⟨2020, 1, 1⟩ "1y" :=
  getTimeframeStartDate_subtracts_years_then_one_day.2.2.2.1 ⟨2020, 1, 1⟩ "2y"
    (by decide) (by decide) (by decide)

/-- C4 counterexample: for the token "all" the resolver returns the Unix
epoch 1970-01-01, which is not before 1900-01-01, so the sentinel is not
earlier than every realistic market data date. -/
theorem getTimeframeStartDate_all_not_before_1900 :
    getTimeframeStartDate ⟨2024, 1, 1⟩ "all" = ⟨1970, 1, 1⟩ ∧
      ¬ getTime (getTimeframeStartDate ⟨2024, 1, 1⟩ "all") < getTime ⟨1900, 1, 1⟩ := by
  decide

/-- C4 (amended): for every end date the resolver with token "all" returns
the sentinel new Date(0), the Unix epoch 1970-01-01, with no further
one-day adjustment; this date is on or before the start of the data the
route can fetch, but it is not before 1900-01-01. -/
theorem getTimeframeStartDate_all_epoch :
    ∀ e : Date, getTimeframeStartDate e "all" = ⟨1970, 1, 1⟩ := fun _ => rfl

/-! ## Facts about the normalizer -/

theorem sortPrices_sorted (l : List StockPriceData) : List.Sorted priceLE (sortPrices l) :=
  List.sorted_insertionSort priceLE l

theorem sortPrices_perm (l : List StockPriceData) : (sortPrices l).Perm l :=
  List.perm_insertionSort priceLE l

theorem findIdx?_mem_isSome {α : Type} (p : α → Bool) (l : List α) (x : α)
    (hx : x ∈ l) (hpx : p x = true) : (l.findIdx? p).isSome := by
  cases hf : l.findIdx? p with
  | none =>
    rw [List.findIdx?_eq_none_iff] at hf
    rw [hf x hx] at hpx
    cases hpx
  | some i => rfl

theorem findIdx?_getD {α : Type} (p : α → Bool) (l : List α) (i : ℕ) (d : α)
    (h : l.findIdx? p = some i) : i < l.length ∧ p (l.getD i d) = true := by
  obtain ⟨hlen, hidx⟩ := List.findIdx?_eq_some_iff_findIdx_eq.mp h
  refine ⟨hlen, ?_⟩
  rw [List.getD_eq_getElem l d hlen]
  subst hidx
  exact @List.findIdx_getElem _ _ _ hlen

/-- Normalization of one stock when a base index with positive price is
found: the result is the rebased tail of the sorted series. -/
theorem processData_some (sd : StockData) (startDate : Date) (i : ℕ)
    (hf : (sortPrices sd.prices).findIdx? (afterStart startDate) = some i)
    (hpos : ¬ ((sortPrices sd.prices).getD i defaultPricePoint).price ≤ 0) :
    processData [sd] startDate =
      some { series := ((sortPrices sd.prices).drop i).map fun point =>
               ({ time := dateToUTCTimestamp point.date
                  value := 100 * (point.price /
                    ((sortPrices sd.prices).getD i defaultPricePoint).price) } : PerformancePoint)
             finalValue :=
               match (((sortPrices sd.prices).drop i).map fun point =>
                   ({ time := dateToUTCTimestamp point.date
                      value := 100 * (point.price /
                        ((sortPrices sd.prices).getD i defaultPricePoint).price) } :
                     PerformancePoint)).getLast? with
               | some pt => pt.value
               | none => 100 } := by
  have hlen := (findIdx?_getD _ _ i defaultPricePoint hf).1
  have hperm := sortPrices_perm sd.prices
  have hne : ¬ sd.prices.length = 0 := by
    have := hperm.length_eq
    omega
  simp only [processData, if_neg hne]
  rw [hf]
  dsimp only
  rw [if_neg hpos]

/-- Normalization of one stock returns absent when no point of the sorted
series is on or after the start date. -/
theorem processData_none_of_findIdx?_none (sd : StockData) (startDate : Date)
    (hf : (sortPrices sd.prices).findIdx? (afterStart startDate) = none) :
    processData [sd] startDate = none := by
  by_cases hne : sd.prices.length = 0
  · simp only [processData, if_pos hne]
  · simp only [processData, if_neg hne]
    rw [hf]

/-- Normalization of one stock returns absent when the base price is not
positive. -/
theorem processData_none_of_nonpos (sd : StockData) (startDate : Date) (i : ℕ)
    (hf : (sortPrices sd.prices).findIdx? (afterStart startDate) = some i)
    (hnp : ((sortPrices sd.prices).getD i defaultPricePoint).price ≤ 0) :
    processData [sd] startDate = none := by
  have hlen := (findIdx?_getD _ _ i defaultPricePoint hf).1
  have hperm := sortPrices_perm sd.prices
  have hne : ¬ sd.prices.length = 0 := by
    have := hperm.length_eq
    omega
  simp only [processData, if_neg hne]
  rw [hf]
  dsimp only
  rw [if_pos hnp]

/-- C1: whenever processData returns a result, the emitted series has
exactly one point for each point of the sorted series from the first
in-window index through the last, in order, each with value
100 * price / basePrice and time the point's date converted to a
timestamp; finalValue is the value of the last emitted point, and the
emitted series is never empty, so the exactly-100 fallback for an empty
series is unreachable. -/
theorem processData_emits_window (sd : StockData) (startDate : Date) (r : ProcessResult)
    (h : processData [sd] startDate = some r) :
    ∃ i, (sortPrices sd.prices).findIdx? (afterStart startDate) = some i ∧
      r.series = ((sortPrices sd.prices).drop i).map (fun point =>
        ({ time := dateToUTCTimestamp point.date
           value := 100 * (point.price /
             ((sortPrices sd.prices).getD i defaultPricePoint).price) } : PerformancePoint)) ∧
      r.series ≠ [] ∧
      ∃ lastPt, r.series.getLast? = some lastPt ∧ r.finalValue = lastPt.value := by
  rcases hf : (sortPrices sd.prices).findIdx? (afterStart startDate) with _ | i
  case none =>
    rw [processData_none_of_findIdx?_none sd startDate hf] at h
    cases h
  case some =>
    by_cases hnp : ((sortPrices sd.prices).getD i defaultPricePoint).price ≤ 0
    · rw [processData_none_of_nonpos sd startDate i hf hnp] at h
      cases h
    · rw [processData_some sd startDate i hf hnp] at h
      have hr := Option.some.inj h
      have hlen := (findIdx?_getD _ _ i defaultPricePoint hf).1
      have hdq : ¬ (sortPrices sd.prices).length ≤ i := by omega
      have hdrop : (sortPrices sd.prices).drop i ≠ [] := by
        intro hcon
        exact hdq (List.drop_eq_nil_iff.mp hcon)
      have hser : ((sortPrices sd.prices).drop i).map (fun point =>
          ({ time := dateToUTCTimestamp point.date
             value := 100 * (point.price /
               ((sortPrices sd.prices).getD i defaultPricePoint).price) } : PerformancePoint)) ≠ [] := by
        intro hcon
        exact hdrop (List.map_eq_nil_iff.mp hcon)
      refine ⟨i, rfl, ?_, ?_, ?_⟩
      · rw [← hr]
      · rw [← hr]
        exact hser
      · rw [← hr]
        refine ⟨_, List.getLast?_eq_getLast _ hser, ?_⟩
        dsimp only
        rw [List.getLast?_eq_getLast _ hser]

/-- Witness for C1 at a one-point series. -/
theorem processData_emits_window_witness :
    ∃ i, (sortPrices sampleStock.prices).findIdx? (afterStart sampleStart) = some i ∧
      sampleResult.series = ((sortPrices sampleStock.prices).drop i).map (fun point =>
        ({ time := dateToUTCTimestamp point.date
           value := 100 * (point.price /
             ((sortPrices sampleStock.prices).getD i defaultPricePoint).price) } :
          PerformancePoint)) ∧
      sampleResult.series ≠ [] ∧
      ∃ lastPt, sampleResult.series.getLast? = some lastPt ∧
        sampleResult.finalValue = lastPt.value :=
  processData_emits_window sampleStock sampleStart sampleResult rfl

/-- C2: for a non-empty price series whose last (sorted) date is on or
after the start date and whose first in-window point has a positive price,
the first emitted PerformancePoint has value exactly 100. -/
theorem processData_first_value_100 (sd : StockData) (startDate : Date)
    (hne : sd.prices ≠ [])
    (hle : ∀ plast, (sortPrices sd.prices).getLast? = some plast →
      getTime startDate ≤ getTime plast.date)
    (hpos : ∀ i, (sortPrices sd.prices).findIdx? (afterStart startDate) = some i →
      0 < ((sortPrices sd.prices).getD i defaultPricePoint).price) :
    ∃ r, processData [sd] startDate = some r ∧
      r.series.head?.map PerformancePoint.value = some 100 := by
  have hperm := sortPrices_perm sd.prices
  have hsne : sortPrices sd.prices ≠ [] := by
    intro hcon
    apply hne
    have hlen := hperm.length_eq
    rw [hcon] at hlen
    exact List.length_eq_zero.mp hlen.symm
  have hlast := List.getLast?_eq_getLast (sortPrices sd.prices) hsne
  have hmem := List.getLast_mem hsne
  have hpl := hle _ hlast
  have hsomeI : ((sortPrices sd.prices).findIdx? (afterStart startDate)).isSome :=
    findIdx?_mem_isSome _ _ _ hmem (decide_eq_true hpl)
  obtain ⟨i, hf⟩ := Option.isSome_iff_exists.mp hsomeI
  have hp := hpos i hf
  have hnp : ¬ ((sortPrices sd.prices).getD i defaultPricePoint).price ≤ 0 := not_le.mpr hp
  rw [processData_some sd startDate i hf hnp]
  refine ⟨_, rfl, ?_⟩
  have hlen := (findIdx?_getD _ _ i defaultPricePoint hf).1
  have hgd : (sortPrices sd.prices).getD i defaultPricePoint = (sortPrices sd.prices)[i] :=
    List.getD_eq_getElem (sortPrices sd.prices) defaultPricePoint hlen
  have hpne : ((sortPrices sd.prices)[i] : StockPriceData).price ≠ 0 := by
    rw [← hgd]
    exact ne_of_gt hp
  simp only [List.head?_map, List.head?_drop, List.getElem?_eq_getElem hlen, Option.map_some']
  rw [hgd, div_self hpne, mul_one]

/-- Witness for C2 at a one-point series. -/
theorem processData_first_value_100_witness :
    ∃ r, processData [sampleStock] sampleStart = some r ∧
      r.series.head?.map PerformancePoint.value = some 100 :=
  processData_first_value_100 sampleStock sampleStart (by decide)
    (by
      intro plast hpl
      have hx : some (⟨⟨2024, 1, 2⟩, (5 : ℚ)⟩ : StockPriceData) = some plast := hpl
      rw [← Option.some.inj hx]
      decide)
    (by
      intro i hf
      have hx : some 0 = some i := hf
      rw [← Option.some.inj hx]
      decide)

/-- C5 counterexample: for the single zero-priced point a base point
exists, at index 0 of the sorted series, yet processData returns absent;
so absence is not exactly the absence of a base point. -/
theorem processData_absent_despite_base :
    processData [zeroStock] ⟨2024, 1, 2⟩ = none ∧
      (sortPrices zeroStock.prices).findIdx? (afterStart ⟨2024, 1, 2⟩) = some 0 :=
  ⟨rfl, rfl⟩

/-- C5 (amended): processData returns absent exactly when no base point
with a positive price exists: absent iff no point of the sorted series
lies on or after the start date (covering the empty series), or the price
at the first in-window index is non-positive; the empty stock list and an
empty price series always give absent. -/
theorem processData_none_characterization :
    (∀ (sd : StockData) (startDate : Date),
      processData [sd] startDate = none ↔
        ((sortPrices sd.prices).findIdx? (afterStart startDate) = none ∨
          ∃ i, (sortPrices sd.prices).findIdx? (afterStart startDate) = some i ∧
            ((sortPrices sd.prices).getD i defaultPricePoint).price ≤ 0)) ∧
    (∀ (startDate : Date) (sym : String) (nm : Option String),
      processData [{ symbol := sym, prices := [], name := nm }] startDate = none) ∧
    (∀ startDate : Date, processData [] startDate = none) := by
  refine ⟨?_, ?_, ?_⟩
  · intro sd startDate
    constructor
    · intro h
      rcases hf : (sortPrices sd.prices).findIdx? (afterStart startDate) with _ | i
      case none => exact Or.inl rfl
      case some =>
        by_cases hnp : ((sortPrices sd.prices).getD i defaultPricePoint).price ≤ 0
        · exact Or.inr ⟨i, rfl, hnp⟩
        · rw [processData_some sd startDate i hf hnp] at h
          cases h
    · intro h
      rcases h with hf | ⟨i, hf, hnp⟩
      · exact processData_none_of_findIdx?_none sd startDate hf
      · exact processData_none_of_nonpos sd startDate i hf hnp
  · intro startDate sym nm
    rfl
  · intro startDate
    rfl

/-- C6: if the base price at the first in-window index is not positive,
processData returns absent, so the rebasing division is never performed
with a non-positive divisor; in particular the single zero-priced point
yields absent. -/
theorem processData_nonpositive_base_absent (sd : StockData) (startDate : Date) (i : ℕ)
    (hf : (sortPrices sd.prices).findIdx? (afterStart startDate) = some i)
    (hnp : ((sortPrices sd.prices).getD i defaultPricePoint).price ≤ 0) :
    processData [sd] startDate = none :=
  processData_none_of_nonpos sd startDate i hf hnp

/-- Witness for C6: the single zero-priced point yields absent. -/
theorem processData_nonpositive_base_absent_witness :
    processData [zeroStock] ⟨2024, 1, 2⟩ = none :=
  processData_nonpositive_base_absent zeroStock ⟨2024, 1, 2⟩ 0 rfl (by decide)

/-- C10: when the dates of the input series are pairwise distinct,
compared as timestamps exactly as the code compares dates, any series
emitted by processData has strictly ascending time values, because the
series is sorted ascending by date before the start index is located and
points are emitted in that order. -/
theorem processData_times_strictly_ascending (sd : StockData) (startDate : Date)
    (r : ProcessResult)
    (hnd : sd.prices.Pairwise (fun a b => getTime a.date ≠ getTime b.date))
    (h : processData [sd] startDate = some r) :
    r.series.Pairwise (fun a b => a.time < b.time) := by
  rcases hf : (sortPrices sd.prices).findIdx? (afterStart startDate) with _ | i
  case none =>
    rw [processData_none_of_findIdx?_none sd startDate hf] at h
    cases h
  case some =>
    by_cases hnp : ((sortPrices sd.prices).getD i defaultPricePoint).price ≤ 0
    · rw [processData_none_of_nonpos sd startDate i hf hnp] at h
      cases h
    · rw [processData_some sd startDate i hf hnp] at h
      have hr := Option.some.inj h
      rw [← hr]
      have hsorted : (sortPrices sd.prices).Pairwise priceLE := sortPrices_sorted sd.prices
      have hnd' : (sortPrices sd.prices).Pairwise
          (fun a b => getTime a.date ≠ getTime b.date) :=
        ((sortPrices_perm sd.prices).pairwise_iff (fun hab => Ne.symm hab)).mpr hnd
      have hlt : (sortPrices sd.prices).Pairwise
          (fun a b => getTime a.date < getTime b.date) :=
        (hsorted.and hnd').imp (fun hab => lt_of_le_of_ne hab.1 hab.2)
      have hdroplt := List.Pairwise.sublist (List.drop_sublist i (sortPrices sd.prices)) hlt
      refine List.pairwise_map.mpr (hdroplt.imp ?_)
      intro a b hab
      show dateToUTCTimestamp a.date < dateToUTCTimestamp b.date
      simp only [getTime, dateToUTCTimestamp] at hab ⊢
      omega

/-- Witness for C10 at a two-point series. -/
theorem processData_times_strictly_ascending_witness :
    sampleResult2.series.Pairwise (fun a b => a.time < b.time) :=
  processData_times_strictly_ascending sampleStock2 sampleStart sampleResult2
    (by decide) rfl

/-! ## Facts about the orchestrator -/

theorem mentions_here (a t b : String) : mentions (a ++ t ++ b) t :=
  ⟨a, b, rfl⟩

theorem mentions_suffix (m u t : String) (h : mentions m t) : mentions (m ++ u) t := by
  obtain ⟨a, b, hm⟩ := h
  refine ⟨a, b ++ u, ?_⟩
  rw [hm]
  simp [String.append_assoc]

/-- C7: the comparison proceeds only when both fetches succeed and both
normalizations return data (the comparison result is present exactly
then); when a fetch fails the composed error message names the failing
ticker(s); when a normalization is absent the message names the ticker
lacking data; and every failure clears the displayed comparison: whenever
the error message is non-empty the comparison data is none. -/
theorem fetchComparisonData_error_handling (t1 t2 tf : String) (e : Date)
    (r1 r2 : FetchResponse) (h1 : t1 ≠ "") (h2 : t2 ≠ "") :
    ((fetchComparisonData t1 t2 tf e r1 r2).1.isSome ↔
      (r1.ok = true ∧ r2.ok = true ∧
        (processData [r1.data] (getTimeframeStartDate e tf)).isSome ∧
        (processData [r2.data] (getTimeframeStartDate e tf)).isSome)) ∧
    (r1.ok = false → mentions (fetchComparisonData t1 t2 tf e r1 r2).2 t1) ∧
    (r2.ok = false → mentions (fetchComparisonData t1 t2 tf e r1 r2).2 t2) ∧
    (r1.ok = true → r2.ok = true →
      processData [r1.data] (getTimeframeStartDate e tf) = none →
      mentions (fetchComparisonData t1 t2 tf e r1 r2).2 t1) ∧
    (r1.ok = true → r2.ok = true →
      processData [r2.data] (getTimeframeStartDate e tf) = none →
      mentions (fetchComparisonData t1 t2 tf e r1 r2).2 t2) ∧
    ((fetchComparisonData t1 t2 tf e r1 r2).2 ≠ "" →
      (fetchComparisonData t1 t2 tf e r1 r2).1 = none) := by
  have hno : ¬ (t1 = "" ∨ t2 = "") := by
    rintro (hc | hc)
    · exact h1 hc
    · exact h2 hc
  simp only [fetchComparisonData, if_neg hno]
  cases hok1 : r1.ok <;> cases hok2 : r2.ok
  case false.false =>
    rw [if_pos (Or.inl rfl), if_pos rfl, if_pos rfl]
    refine ⟨by simp, ?_, ?_, ?_, ?_, fun _ => rfl⟩
    · intro _
      exact mentions_suffix _ _ _ (mentions_suffix _ _ _ (mentions_suffix _ _ _
        (mentions_here _ _ _)))
    · intro _
      exact mentions_here _ _ _
    · intro hcon
      exact absurd hcon (by simp)
    · intro hcon
      exact absurd hcon (by simp)
  case false.true =>
    rw [if_pos (Or.inl rfl), if_pos rfl, if_neg (show ¬(true = false) by simp)]
    refine ⟨by simp, ?_, ?_, ?_, ?_, fun _ => rfl⟩
    · intro _
      exact mentions_here _ _ _
    · intro hcon
      exact absurd hcon (by simp)
    · intro hcon
      exact absurd hcon (by simp)
    · intro hcon
      exact absurd hcon (by simp)
  case true.false =>
    rw [if_pos (Or.inr rfl), if_neg (show ¬(true = false) by simp), if_pos rfl]
    refine ⟨by simp, ?_, ?_, ?_, ?_, fun _ => rfl⟩
    · intro hcon
      exact absurd hcon (by simp)
    · intro _
      exact mentions_here _ _ _
    · intro _ hcon
      exact absurd hcon (by simp)
    · intro _ hcon
      exact absurd hcon (by simp)
  case true.true =>
    rw [if_neg (show ¬(true = false ∨ true = false) by simp)]
    rcases hp1 : processData [r1.data] (getTimeframeStartDate e tf) with _ | p1 <;>
      rcases hp2 : processData [r2.data] (getTimeframeStartDate e tf) with _ | p2
    · dsimp only
      refine ⟨by simp, ?_, ?_, ?_, ?_, fun _ => rfl⟩
      · intro hcon
        exact absurd hcon (by simp)
      · intro hcon
        exact absurd hcon (by simp)
      · intro _ _ _
        exact mentions_suffix _ _ _ (mentions_suffix _ _ _ (mentions_suffix _ _ _
          (mentions_here _ _ _)))
      · intro _ _ _
        exact mentions_here _ _ _
    · dsimp only
      refine ⟨by simp, ?_, ?_, ?_, ?_, fun _ => rfl⟩
      · intro hcon
        exact absurd hcon (by simp)
      · intro hcon
        exact absurd hcon (by simp)
      · intro _ _ _
        exact mentions_here _ _ _
      · intro _ _ hcon
        exact absurd hcon (by simp)
    · dsimp only
      refine ⟨by simp, ?_, ?_, ?_, ?_, fun _ => rfl⟩
      · intro hcon
        exact absurd hcon (by simp)
      · intro hcon
        exact absurd hcon (by simp)
      · intro _ _ hcon
        exact absurd hcon (by simp)
      · intro _ _ _
        exact mentions_here _ _ _
    · dsimp only
      refine ⟨by simp, ?_, ?_, ?_, ?_, ?_⟩
      · intro hcon
        exact absurd hcon (by simp)
      · intro hcon
        exact absurd hcon (by simp)
      · intro _ _ hcon
        exact absurd hcon (by simp)
      · intro _ _ hcon
        exact absurd hcon (by simp)
      · intro hcon
        exact absurd rfl hcon

/-- Witness for C7: a failed first fetch clears the result and the message
names the first ticker. -/
theorem fetchComparisonData_error_handling_witness :
    mentions (fetchComparisonData "AAPL" "MSFT" "1y" sampleStart
      ⟨false, sampleStock⟩ ⟨true, sampleStock2⟩).2 "AAPL" :=
  (fetchComparisonData_error_handling "AAPL" "MSFT" "1y" sampleStart
    ⟨false, sampleStock⟩ ⟨true, sampleStock2⟩ (by decide) (by decide)).2.1 rfl

/-! ## Facts about the stock route -/

/-- C8 counterexample: a known symbol whose provider chart call succeeds
with zero usable bars receives a 200 response carrying empty prices, not a
not-found status, so the not-found status does not cover every no-data
case. -/
theorem GET_empty_data_not_404 :
    GET (some "XYZ") (Except.ok []) (Except.ok ⟨none, none⟩) =
      { status := 200, body := ApiBody.stock "XYZ" "XYZ Inc." [] } ∧
    (GET (some "XYZ") (Except.ok []) (Except.ok ⟨none, none⟩)).status ≠ 404 :=
  ⟨rfl, by decide⟩

/-- C8 (amended): the responses of the stock route for a present,
non-empty symbol: a successful provider pair yields status 200 with the
stock payload (symbol, name, prices — possibly empty); a provider error
classified as not-found yields status 404 with an error body naming the
symbol; any other provider error yields status 500 with the generic error
body. -/
theorem GET_response_shape (sym : String) (hsym : ¬ toUpperStr sym = "")
    (chartRes : Except ProviderError (List ChartQuote))
    (quoteRes : Except ProviderError QuoteInfo) :
    (∀ quotes q, chartRes = Except.ok quotes → quoteRes = Except.ok q →
      GET (some sym) chartRes quoteRes =
        { status := 200
          body := ApiBody.stock (toUpperStr sym)
            (orFalsy q.longName (orFalsy q.shortName (toUpperStr sym ++ " Inc.")))
            (quotes.filterMap toApiPrice) }) ∧
    (∀ err, (chartRes = Except.error err ∨
        (∃ quotes, chartRes = Except.ok quotes ∧ quoteRes = Except.error err)) →
      (isNotFoundError err = true →
        GET (some sym) chartRes quoteRes =
          { status := 404
            body := ApiBody.error
              ("Stock symbol " ++ toUpperStr sym ++ " not found or no data available") }) ∧
      (isNotFoundError err = false →
        GET (some sym) chartRes quoteRes =
          { status := 500, body := ApiBody.error "Failed to fetch stock data" })) := by
  constructor
  · intro quotes q hc hq
    subst hc
    subst hq
    simp only [GET, Option.map_some', if_neg hsym]
  · intro err hcase
    constructor
    · intro h404
      rcases hcase with hc | ⟨quotes, hc, hq⟩
      · subst hc
        simp only [GET, Option.map_some', if_neg hsym, errorResponse, if_pos h404]
      · subst hc
        subst hq
        simp only [GET, Option.map_some', if_neg hsym, errorResponse, if_pos h404]
    · intro h500
      have hnot : ¬ isNotFoundError err = true := by
        rw [h500]
        simp
      rcases hcase with hc | ⟨quotes, hc, hq⟩
      · subst hc
        simp only [GET, Option.map_some', if_neg hsym, errorResponse, if_neg hnot]
      · subst hc
        subst hq
        simp only [GET, Option.map_some', if_neg hsym, errorResponse, if_neg hnot]

/-- Witness for C8 (amended): a not-found style provider error for a
concrete symbol yields the 404 response. -/
theorem GET_response_shape_witness :
    GET (some "ibm") (Except.error ⟨"No data found, symbol may be delisted", none⟩)
        (Except.ok ⟨none, none⟩) =
      { status := 404
        body := ApiBody.error ("Stock symbol " ++ toUpperStr "ibm" ++
          " not found or no data available") } :=
  ((GET_response_shape "ibm" (by decide)
      (Except.error ⟨"No data found, symbol may be delisted", none⟩)
      (Except.ok ⟨none, none⟩)).2
    ⟨"No data found, symbol may be delisted", none⟩ (Or.inl rfl)).1 (by decide)

/-! ## Facts about the debounced trigger -/

/-- C9: three qualifying input changes inside one 500 ms debounce window
produce exactly one fetch invocation, carrying the ticker and timeframe
values captured at the last change; and every qualifying change cancels
whatever timer is pending (the effect ignores it) and starts a fresh
500 ms timer capturing the current inputs. -/
theorem debounce_three_changes_one_invocation (t1 t2 t3 : Nat) (v1 v2 v3 : DebounceInput)
    (h12 : t1 < t2) (h23 : t2 < t3) (hwin : t3 < t1 + 500)
    (hq1 : v1.ticker1 ≠ "" ∧ v1.ticker2 ≠ "")
    (hq2 : v2.ticker1 ≠ "" ∧ v2.ticker2 ≠ "")
    (hq3 : v3.ticker1 ≠ "" ∧ v3.ticker2 ≠ "") :
    debounceRun none [(t1, v1), (t2, v2), (t3, v3)] = [v3] ∧
    (∀ (now : Nat) (inp : DebounceInput) (timer : Option (Nat × DebounceInput)),
      inp.ticker1 ≠ "" → inp.ticker2 ≠ "" →
      debounceEffect now inp timer = some (now + 500, inp)) := by
  have e1 : debounceEffect t1 v1 none = some (t1 + 500, v1) := by
    simp only [debounceEffect, if_pos hq1]
  have e2 : debounceEffect t2 v2 none = some (t2 + 500, v2) := by
    simp only [debounceEffect, if_pos hq2]
  have e3 : debounceEffect t3 v3 none = some (t3 + 500, v3) := by
    simp only [debounceEffect, if_pos hq3]
  constructor
  · calc debounceRun none [(t1, v1), (t2, v2), (t3, v3)]
        = debounceRun (debounceEffect t1 v1 none) [(t2, v2), (t3, v3)] := rfl
      _ = debounceRun (some (t1 + 500, v1)) [(t2, v2), (t3, v3)] := by rw [e1]
      _ = debounceRun (debounceEffect t2 v2 none) [(t3, v3)] := by
          show (if t1 + 500 ≤ t2 then
              v1 :: debounceRun (debounceEffect t2 v2 none) [(t3, v3)]
            else debounceRun (debounceEffect t2 v2 none) [(t3, v3)]) = _
          rw [if_neg (by omega)]
      _ = debounceRun (some (t2 + 500, v2)) [(t3, v3)] := by rw [e2]
      _ = debounceRun (debounceEffect t3 v3 none) [] := by
          show (if t2 + 500 ≤ t3 then
              v2 :: debounceRun (debounceEffect t3 v3 none) []
            else debounceRun (debounceEffect t3 v3 none) []) = _
          rw [if_neg (by omega)]
      _ = debounceRun (some (t3 + 500, v3)) [] := by rw [e3]
      _ = [v3] := rfl
  · intro now inp timer ha hb
    simp only [debounceEffect, if_pos (And.intro ha hb)]

/-- Witness for C9: three concrete changes at 0, 100 and 200 ms invoke the
fetch once with the last inputs. -/
theorem debounce_three_changes_one_invocation_witness :
    debounceRun none [(0, ⟨"A", "B", "1y"⟩), (100, ⟨"A", "MS", "1y"⟩),
      (200, ⟨"AA", "MS", "3y"⟩)] = [⟨"AA", "MS", "3y"⟩] :=
  (debounce_three_changes_one_invocation 0 100 200 ⟨"A", "B", "1y"⟩ ⟨"A", "MS", "1y"⟩
    ⟨"AA", "MS", "3y"⟩ (by decide) (by decide) (by decide) (by decide) (by decide)
    (by decide)).1

end StockCompare
